import Mathlib

/-!
Verification of the message rate limiter in `src/qtui/status_bar.cc`
(audacious-plugins Qt interface status bar).

The embedding models:
  * `audlog.Level` — the logging severity enumeration (`Debug < Info <
    Warning < Error`), compared through its integer value as the C++
    code does (`current_message_level` is a plain `int`, `-1` = none);
  * `RLState` — the static rate-limiter data `current_message_level`
    / `current_message_serial`; the serial is a 32-bit `unsigned`, so
    incrementing it wraps modulo `2 ^ 32`;
  * `set_message_level` — the guarded compare-and-set; it also returns
    the deferred reset task queued via `message_func.queue(1000, ...)`
    (its delay and the serial captured by the lambda);
  * `message_func_reset` — the body of the queued lambda;
  * `log_handler` — rejection short-circuit plus the last-non-empty-line
    reduction of the message text and the queued display event;
  * `log_message` — the `showMessage(text, TIMEOUT_MS)` call and the
    style-sheet choice;
  * `StatusBar_destructor` — the effects of `StatusBar::~StatusBar`;
  * a small timed harness (`TimedState`, `stepAt`, `fireDue`) in which
    queued reset tasks fire once their deadline has passed.
-/

/-- Severity enumeration of `audlog` (libaudcore/log.h). -/
inductive Level
  | Debug
  | Info
  | Warning
  | Error
deriving DecidableEq, Repr

/-- The integer value of a severity, as used by the implicit conversion in
`level <= current_message_level`. -/
def Level.toInt : Level → Int
  | .Debug => 0
  | .Info => 1
  | .Warning => 2
  | .Error => 3

/-- `#define TIMEOUT_MS 5000` — display duration of `showMessage`. -/
def TIMEOUT_MS : Nat := 5000

/-- `2 ^ 32`: the modulus of the 32-bit `unsigned` counter
`current_message_serial`; its `++` wraps to `0` at `UINT_MAX`. -/
def uintMod : Nat := 4294967296

/-- The static rate-limiter data guarded by `message_lock`:
`current_message_level` (an `int`, initially `-1`) and
`current_message_serial` (a 32-bit `unsigned`, initially `0`, held as a
`Nat` that every increment reduces modulo `uintMod`). -/
structure RLState where
  current_message_level : Int
  current_message_serial : Nat
deriving DecidableEq, Repr

/-- The initial values of the statics: `-1` (no active message) and `0`. -/
def initState : RLState := ⟨-1, 0⟩

/-- A deferred reset queued via `message_func.queue(delay, [serial](){...})`:
the delay in milliseconds and the serial value captured by the lambda. -/
structure ResetTask where
  delay : Nat
  serial : Nat
deriving DecidableEq, Repr

/-- `set_message_level`: under the lock, reject when
`level <= current_message_level`; otherwise store the level, increment the
serial (32-bit unsigned `++`, wrapping modulo `uintMod`), and queue the
deferred reset with the new serial and a 1000 ms delay.  Returns
(return value, post-state, queued task if any). -/
def set_message_level (level : Level) (s : RLState) :
    Bool × RLState × Option ResetTask :=
  if level.toInt ≤ s.current_message_level then
    (false, s, none)
  else
    let s' : RLState := ⟨level.toInt, (s.current_message_serial + 1) % uintMod⟩
    (true, s', some ⟨1000, s'.current_message_serial⟩)

/-- The body of the lambda queued by `set_message_level`: reset
`current_message_level` to `-1` only when `current_message_serial` still
equals the captured `serial`. -/
def message_func_reset (serial : Nat) (s : RLState) : RLState :=
  if s.current_message_serial = serial then
    { s with current_message_level := -1 }
  else
    s

/-- `QString::split('\n')`: split a text (modelled as its character list)
at every newline; `n` newlines yield `n + 1` parts, empty parts included
(the `SkipEmptyParts` filter is applied separately, as in the source). -/
def splitOnNl : List Char → List (List Char)
  | [] => [[]]
  | c :: cs =>
    let rest := splitOnNl cs
    if c = '\n' then [] :: rest
    else
      match rest with
      | [] => [[c]]
      | p :: ps => (c :: p) :: ps

/-- Reduce a message text to its last non-empty line, as
`s.split('\n', SkipEmptyParts).last()` does when the text contains a
newline.  `.last()` on an empty `QList` is undefined, so the result is an
`Option`: `none` models that branch. -/
def lastNonEmptyLine (text : List Char) : Option (List Char) :=
  if text.contains '\n' then
    ((splitOnNl text).filter (fun p => p ≠ [])).getLast?
  else
    some text

/-- Everything observable about one `StatusBar::log_handler` call: the
verdict of `set_message_level`, the rate-limiter post-state, the deferred
reset it queued (if any), and the display event handed to `event_queue`
(if any), carrying the severity and the reduced text. -/
structure HandlerOut where
  accepted : Bool
  state : RLState
  scheduled : Option ResetTask
  queued : Option (Level × Option (List Char))
deriving DecidableEq, Repr

/-- `StatusBar::log_handler`: bail out when `set_message_level` returns
false (queuing nothing); otherwise reduce the text and queue the
"qtui log message" display event. -/
def log_handler (level : Level) (text : List Char) (s : RLState) : HandlerOut :=
  let r := set_message_level level s
  if r.1 then
    ⟨true, r.2.1, r.2.2, some (level, lastNonEmptyLine text)⟩
  else
    ⟨false, r.2.1, r.2.2, none⟩

/-- A queued display event (`struct Message`). -/
structure Message where
  level : Level
  text : List Char
deriving DecidableEq, Repr

/-- The three style sheets of the status bar. -/
inductive Css
  | normal
  | warning
  | error
deriving DecidableEq, Repr

/-- The observable effect of `StatusBar::log_message`: which style sheet is
set and the `showMessage(text, duration)` call. -/
structure ShowCall where
  css : Css
  text : List Char
  duration : Nat
deriving DecidableEq, Repr

/-- `StatusBar::log_message`: set `error_css` exactly for `Error` severity
(otherwise `warning_css`) and call `showMessage(message->text, TIMEOUT_MS)`. -/
def log_message (m : Message) : ShowCall :=
  ⟨if m.level = Level.Error then Css.error else Css.warning, m.text, TIMEOUT_MS⟩

/-- The process state the destructor can affect: whether `log_handler` is
subscribed to `audlog`, the pending "qtui log message" display events in
the event queue, the outstanding `message_func` deferred reset (if any),
and the static rate-limiter data. -/
structure AppState where
  subscribed : Bool
  queuedDisplayEvents : List Message
  pendingReset : Option ResetTask
  rl : RLState
deriving DecidableEq, Repr

/-- `StatusBar::~StatusBar`: `audlog::unsubscribe(log_handler)` followed by
`event_queue_cancel("qtui log message")`.  Nothing else is touched. -/
def StatusBar_destructor (a : AppState) : AppState :=
  { a with subscribed := false, queuedDisplayEvents := [] }

/-- An operation on the rate-limiter state: a `log_handler` invocation
(through `set_message_level`) or the firing of a queued reset lambda. -/
inductive Op
  | message (level : Level)
  | reset (serial : Nat)
deriving DecidableEq, Repr

/-- Apply one operation to the rate-limiter state. -/
def applyOp : Op → RLState → RLState
  | .message level, s => (set_message_level level s).2.1
  | .reset serial, s => message_func_reset serial s

/-- Timed harness: the rate-limiter state plus the queued reset tasks,
each recorded as (absolute fire time, captured serial). -/
structure TimedState where
  rl : RLState
  timers : List (Nat × Nat)
deriving DecidableEq, Repr

/-- Fire every queued reset whose deadline `≤ now`, in queue order. -/
def fireDue (now : Nat) (ts : TimedState) : TimedState :=
  ⟨(ts.timers.filter (fun p => decide (p.1 ≤ now))).foldl
      (fun s p => message_func_reset p.2 s) ts.rl,
   ts.timers.filter (fun p => ! decide (p.1 ≤ now))⟩

/-- A `set_message_level` call at absolute time `now`: resets due by `now`
fire first, then the call runs; an accepted call queues its reset task
`delay` ms in the future. -/
def stepAt (now : Nat) (level : Level) (ts : TimedState) : Bool × TimedState :=
  let ts1 := fireDue now ts
  let r := set_message_level level ts1.rl
  match r.2.2 with
  | none => (r.1, ⟨r.2.1, ts1.timers⟩)
  | some task => (r.1, ⟨r.2.1, ts1.timers ++ [(now + task.delay, task.serial)]⟩)

/-- The spec's timed scenario, starting from the initial state:
calls at t = 0 (Warning), 500 (Warning), 600 (Error), 700 (Info), then
all resets due by t = 1601 fire, then a call at t = 1700 (Info).
Returns the five verdicts and the level observed at t = 1601. -/
def scenario : Bool × Bool × Bool × Bool × Int × Bool :=
  let r1 := stepAt 0 Level.Warning ⟨initState, []⟩
  let r2 := stepAt 500 Level.Warning r1.2
  let r3 := stepAt 600 Level.Error r2.2
  let r4 := stepAt 700 Level.Info r3.2
  let ts5 := fireDue 1601 r4.2
  let r6 := stepAt 1700 Level.Info ts5
  (r1.1, r2.1, r3.1, r4.1, ts5.rl.current_message_level, r6.1)

/-- Helper: the full effect of an accepted `set_message_level` call. -/
theorem accept_eq (level : Level) (s : RLState)
    (h : s.current_message_level < level.toInt) :
    set_message_level level s =
      (true, ⟨level.toInt, (s.current_message_serial + 1) % uintMod⟩,
        some ⟨1000, (s.current_message_serial + 1) % uintMod⟩) := by
  simp [set_message_level, not_le.mpr h]

/-- Helper: the full effect of a rejected `set_message_level` call. -/
theorem reject_eq (level : Level) (s : RLState)
    (h : level.toInt ≤ s.current_message_level) :
    set_message_level level s = (false, s, none) := by
  simp [set_message_level, h]

/-- Helper: every severity has a non-negative integer value. -/
theorem toInt_nonneg (level : Level) : 0 ≤ level.toInt := by
  cases level <;> simp [Level.toInt]

/-- C1: `set_message_level` returns true iff the severity is strictly
greater than the currently active level, or no message is active
(`current_message_level = -1`). -/
theorem set_message_level_true_iff (level : Level) (s : RLState) :
    (set_message_level level s).1 = true ↔
      (s.current_message_level < level.toInt ∨ s.current_message_level = -1) := by
  have h0 := toInt_nonneg level
  simp only [set_message_level]
  split
  · simp only [Bool.false_eq_true, false_iff]
    push_neg
    omega
  · simp only [true_iff]
    omega

/-- C2: the deferred reset is a no-op when the serial has advanced, and
resets only the level (back to -1) when the serial still matches. -/
theorem message_func_reset_guard (serial : Nat) (s : RLState) :
    (s.current_message_serial ≠ serial → message_func_reset serial s = s) ∧
    (s.current_message_serial = serial →
      message_func_reset serial s = { s with current_message_level := -1 }) := by
  unfold message_func_reset
  constructor <;> intro h <;> simp [h]

theorem message_func_reset_guard_witness :
    message_func_reset 1 ⟨2, 2⟩ = ⟨2, 2⟩ ∧
    message_func_reset 2 ⟨2, 2⟩ = ⟨-1, 2⟩ :=
  ⟨(message_func_reset_guard 1 ⟨2, 2⟩).1 (by decide),
   (message_func_reset_guard 2 ⟨2, 2⟩).2 (by decide)⟩

/-- C3 counterexample: at the 32-bit wrap, an accepted call does not leave
the serial at exactly one more than its pre-state value: from serial
`4294967295` (`UINT_MAX`) the unsigned `++` yields `0`, not `4294967296`. -/
theorem accept_post_wrap_cex :
    (set_message_level Level.Warning ⟨-1, 4294967295⟩).1 = true ∧
    (set_message_level Level.Warning ⟨-1, 4294967295⟩).2.1.current_message_serial
      = 0 ∧
    (set_message_level Level.Warning ⟨-1, 4294967295⟩).2.1.current_message_serial
      ≠ 4294967295 + 1 := by
  refine ⟨rfl, rfl, by decide⟩

/-- C3 (amended): an accepted call returns true, stores the severity, sets
the serial to its pre-state value plus one reduced modulo `2 ^ 32` (exactly
one more except at the `UINT_MAX` wrap, where it becomes 0), and the queued
reset captures that new serial. -/
theorem accept_post (level : Level) (s : RLState)
    (h : s.current_message_level < level.toInt) :
    set_message_level level s =
      (true, ⟨level.toInt, (s.current_message_serial + 1) % uintMod⟩,
        some ⟨1000, (s.current_message_serial + 1) % uintMod⟩) :=
  accept_eq level s h

theorem accept_post_witness :
    set_message_level Level.Warning initState = (true, ⟨2, 1⟩, some ⟨1000, 1⟩) :=
  accept_post Level.Warning initState (by decide)

/-- C4: a rejected call leaves the rate-limiter state unchanged, queues no
deferred reset, and `log_handler` queues no display event. -/
theorem reject_frame (level : Level) (text : List Char) (s : RLState)
    (h : level.toInt ≤ s.current_message_level) :
    set_message_level level s = (false, s, none) ∧
    log_handler level text s = ⟨false, s, none, none⟩ := by
  have h1 := reject_eq level s h
  exact ⟨h1, by simp [log_handler, h1]⟩

theorem reject_frame_witness :
    set_message_level Level.Warning ⟨2, 5⟩ = (false, ⟨2, 5⟩, none) ∧
    log_handler Level.Warning ['x'] ⟨2, 5⟩ = ⟨false, ⟨2, 5⟩, none, none⟩ :=
  reject_frame Level.Warning ['x'] ⟨2, 5⟩ (by decide)

/-- C5: the timed trace from the initial state: Warning at t=0 is accepted,
Warning at t=500 rejected, Error at t=600 accepted, Info at t=700 rejected,
the resets due by t=1601 leave the level at -1, and Info at t=1700 is
accepted. -/
theorem scenario_trace : scenario = (true, false, true, false, -1, true) := by
  decide

/-- C6 counterexample: the serial is not monotonically non-decreasing
across every operation: at serial `4294967295` (`UINT_MAX`) an accepted
call wraps it to `0`, so the serial of that window recurs after `2 ^ 32`
accepted calls. -/
theorem serial_monotone_wrap_cex :
    (applyOp (Op.message Level.Warning)
      ⟨-1, 4294967295⟩).current_message_serial = 0 ∧
    ¬ (⟨-1, 4294967295⟩ : RLState).current_message_serial ≤
      (applyOp (Op.message Level.Warning)
        ⟨-1, 4294967295⟩).current_message_serial := by
  refine ⟨rfl, by decide⟩

/-- C6 (amended): only an accepted `set_message_level` changes the serial,
setting it to its pre-state value plus one reduced modulo `2 ^ 32`; a
rejected call and the reset lambda keep it exactly; consequently, from any
in-range serial (below `2 ^ 32`) the serial never decreases under any
operation except at the `UINT_MAX` wrap, where an accepting call takes it
from `2 ^ 32 - 1` to `0`. -/
theorem serial_wrap_update (op : Op) (s : RLState) :
    (∀ n, (applyOp (Op.reset n) s).current_message_serial =
      s.current_message_serial) ∧
    (∀ level, ((set_message_level level s).2.1).current_message_serial =
      if (set_message_level level s).1 then
        (s.current_message_serial + 1) % uintMod
      else s.current_message_serial) ∧
    (s.current_message_serial < uintMod →
      (s.current_message_serial ≤ (applyOp op s).current_message_serial ∨
        (s.current_message_serial = uintMod - 1 ∧
          (applyOp op s).current_message_serial = 0))) := by
  refine ⟨?_, ?_, ?_⟩
  · intro n
    simp only [applyOp, message_func_reset]
    split <;> simp
  · intro level
    simp only [set_message_level]
    split <;> simp
  · intro h
    cases op with
    | message level =>
      simp only [applyOp, set_message_level]
      split
      · left
        simp
      · simp only [uintMod] at h ⊢
        omega
    | reset n =>
      left
      simp only [applyOp, message_func_reset]
      split <;> simp

theorem serial_wrap_update_witness :
    (0 : Nat) ≤ (applyOp (Op.message Level.Warning)
        initState).current_message_serial ∨
      ((0 : Nat) = uintMod - 1 ∧
        (applyOp (Op.message Level.Warning)
          initState).current_message_serial = 0) :=
  (serial_wrap_update (Op.message Level.Warning) initState).2.2 (by decide)

/-- C7: an accepted `log_handler` call queues the display event carrying
the severity and the text reduced to its last non-empty line; "a\nb\nc"
reduces to "c"; text without a newline passes through unchanged. -/
theorem accepted_text_reduction (level : Level) (text : List Char) (s : RLState)
    (h : s.current_message_level < level.toInt) :
    (log_handler level text s).queued = some (level, lastNonEmptyLine text) ∧
    lastNonEmptyLine "a\nb\nc".data = some "c".data ∧
    (∀ t : List Char, t.contains '\n' = false → lastNonEmptyLine t = some t) := by
  refine ⟨?_, by decide, fun t ht => ?_⟩
  · have h1 := accept_eq level s h
    simp [log_handler, h1]
  · unfold lastNonEmptyLine
    rw [ht]
    simp

theorem accepted_text_reduction_witness :
    (log_handler Level.Warning "a\nb\nc".data initState).queued =
      some (Level.Warning, lastNonEmptyLine "a\nb\nc".data) :=
  (accepted_text_reduction Level.Warning "a\nb\nc".data initState (by decide)).1

/-- C8 counterexample: after the destructor runs on a state with an
outstanding deferred reset, the reset is still pending — the destructor
cancels only the queued display event, not the `message_func` task. -/
theorem destructor_keeps_pending_reset :
    (StatusBar_destructor
      ⟨true, [⟨Level.Warning, ['x']⟩], some ⟨1000, 1⟩, ⟨2, 1⟩⟩).pendingReset
      = some ⟨1000, 1⟩ ∧
    (StatusBar_destructor
      ⟨true, [⟨Level.Warning, ['x']⟩], some ⟨1000, 1⟩, ⟨2, 1⟩⟩).pendingReset
      ≠ none := by
  exact ⟨rfl, by decide⟩

/-- C8 (amended): the destructor unsubscribes the log handler and cancels
the queued display events, and leaves the pending deferred reset and the
rate-limiter state untouched. -/
theorem destructor_effects (a : AppState) :
    (StatusBar_destructor a).subscribed = false ∧
    (StatusBar_destructor a).queuedDisplayEvents = [] ∧
    (StatusBar_destructor a).pendingReset = a.pendingReset ∧
    (StatusBar_destructor a).rl = a.rl :=
  ⟨rfl, rfl, rfl, rfl⟩

/-- C9: the display duration is exactly 5000 ms and every queued deferred
reset has exactly a 1000 ms delay. -/
theorem timing_constants (level : Level) (s : RLState) :
    TIMEOUT_MS = 5000 ∧
    (∀ m : Message, (log_message m).duration = 5000) ∧
    (∀ t : ResetTask, (set_message_level level s).2.2 = some t → t.delay = 1000) := by
  refine ⟨rfl, fun m => rfl, fun t ht => ?_⟩
  unfold set_message_level at ht
  split at ht
  · simp at ht
  · simp at ht
    rw [← ht]

theorem timing_constants_witness :
    (⟨1000, 1⟩ : ResetTask).delay = 1000 :=
  (timing_constants Level.Warning initState).2.2 ⟨1000, 1⟩ (by decide)

/-- C10: the last-non-empty-line reduction is partial: it yields no line
exactly when the text contains a newline but every split part is empty
(e.g. "\n" and "\n\n"); all other texts avoid the undefined branch. -/
theorem lastNonEmptyLine_partiality :
    lastNonEmptyLine "\n".data = none ∧
    lastNonEmptyLine "\n\n".data = none ∧
    (∀ t : List Char, lastNonEmptyLine t = none ↔
      (t.contains '\n' = true ∧
        (splitOnNl t).filter (fun p => p ≠ []) = [])) := by
  refine ⟨by decide, by decide, fun t => ?_⟩
  unfold lastNonEmptyLine
  split
  · rw [List.getLast?_eq_none_iff]
    simp_all
  · simp_all
